import Mathlib

set_option maxHeartbeats 1000000

namespace AwsLambdaPipeline

/-- Shallow embedding of the Python/JSON values handled by `api_data_pipeline.py`.
A Python dict (ordered, CPython insertion order) is encoded as a chain
`dcons k₁ v₁ (dcons k₂ v₂ … dnil)`, a Python list as `lcons v₁ (… lnil)`;
this flat encoding avoids a nested inductive. `vnone` is `None`; `vbad` stands
for an object whose `str()` raises (the `except` path of `generate_unique_id`).
JSON floats are not modelled (no claim involves them). Values in which a
`dcons`/`lcons` tail is not itself a dict/list chain never arise from the
modelled operations. -/
inductive Val where
  | vstr (s : String)
  | vint (n : Int)
  | vbool (b : Bool)
  | vnone
  | vbad
  | dnil
  | dcons (k : String) (v : Val) (rest : Val)
  | lnil
  | lcons (v : Val) (rest : Val)
deriving DecidableEq

/-- Builds a dict value from a list of bindings. -/
def mkDict : List (String × Val) → Val
  | [] => .dnil
  | (k, v) :: rest => .dcons k v (mkDict rest)

/-- Builds a list value from a list of elements. -/
def mkList : List Val → Val
  | [] => .lnil
  | v :: rest => .lcons v (mkList rest)

/-- Python truthiness (`if not x`): empty string/dict/list, `None`, `0` and
`False` are falsy; `vbad` models a generic object, which is truthy. -/
def truthy : Val → Bool
  | .vstr s => !s.isEmpty
  | .vint n => n != 0
  | .vbool b => b
  | .vnone => false
  | .vbad => true
  | .dnil => false
  | .dcons _ _ _ => true
  | .lnil => false
  | .lcons _ _ => true

/-- Python `isinstance(x, dict)`. -/
def isDict : Val → Bool
  | .dnil => true
  | .dcons _ _ _ => true
  | _ => false

/-- Python `isinstance(x, list)`. -/
def isList : Val → Bool
  | .lnil => true
  | .lcons _ _ => true
  | _ => false

/-- The elements of a list value. -/
def listElems : Val → List Val
  | .lcons v rest => v :: listElems rest
  | _ => []

/-- Ordered-dict lookup (CPython dicts have unique keys, so first binding wins). -/
def dictLookup : Val → String → Option Val
  | .dcons k v rest, key => if k = key then some v else dictLookup rest key
  | _, _ => none

/-- Assignment `d[key] = v` on a CPython dict: an existing key keeps its position, a new
key is appended at the end of the chain. -/
def dictSet : Val → String → Val → Val
  | .dcons k w rest, key, v =>
      if k = key then .dcons k v rest else .dcons k w (dictSet rest key v)
  | _, key, v => .dcons key v .dnil

/-- Rendering worker for `str`. With `inner := true` a dict/list chain is
rendered without its surrounding brackets (the comma-joined contents); the
recursion stays structural in the value so the kernel can evaluate it. -/
def pyStrM : Bool → Val → Option String
  | _, .vstr s => some s
  | _, .vint n => some (toString n)
  | _, .vbool b => some (if b then "True" else "False")
  | _, .vnone => some "None"
  | _, .vbad => none
  | inner, .dnil => some (if inner then "" else "\x7b\x7d")
  | inner, .dcons k v rest =>
      match pyStrM false v, pyStrM true rest with
      | some sv, some tail =>
          let body := k ++ ": " ++ sv ++
            (match rest with | .dcons _ _ _ => ", " ++ tail | _ => tail)
          some (if inner then body else "\x7b" ++ body ++ "\x7d")
      | _, _ => none
  | inner, .lnil => some (if inner then "" else "[]")
  | inner, .lcons v rest =>
      match pyStrM false v, pyStrM true rest with
      | some sv, some tail =>
          let body := sv ++
            (match rest with | .lcons _ _ => ", " ++ tail | _ => tail)
          some (if inner then body else "[" ++ body ++ "]")
      | _, _ => none

/-- Python `str(v)`. `none` models `str` raising (only for `vbad`, or a
container holding one). Container rendering approximates CPython's output; no
configured key field of this pipeline holds a container. -/
def pyStr : Val → Option String :=
  pyStrM false

/-- Python `v.get(key, d)`: `none` (an `AttributeError`) when `v` is not a
dict, otherwise the value bound to `key` or the default `d`. -/
def pyGetD (v : Val) (key : String) (d : Val) : Option Val :=
  if isDict v then some ((dictLookup v key).getD d) else none

/-- Python `v.get(key)` (default `None`). -/
def pyGet (v : Val) (key : String) : Option Val :=
  pyGetD v key .vnone

/-! ## Identity Generator (`generate_unique_id`, api_data_pipeline.py:205-211)

The external `hashlib.md5(...).hexdigest()` is modelled by an arbitrary
function `md5hex : String → String`: every theorem holds for any such
function, in particular for real MD5. -/

/-- The list `[str(item.get(k, "")) for k in keys]`; `none` when `item` is not
a dict (`.get` raises) or some `str` raises — the `except` path. -/
def strParts (item : Val) : List String → Option (List String)
  | [] => some []
  | k :: ks => do
      let v ← pyGetD item k (.vstr "")
      let s ← pyStr v
      let rest ← strParts item ks
      pure (s :: rest)

/-- Python `generate_unique_id(item, keys)`: hex digest of the concatenation of the
stringified key fields, or `None` when anything inside the `try` raises. -/
def generate_unique_id (md5hex : String → String) (item : Val)
    (keys : List String) : Option String :=
  match strParts item keys with
  | some parts => some (md5hex (String.join parts))
  | none => none

/-! ## Response Normalizer (`parse_api_response`, api_data_pipeline.py:214-234) -/

/-- The body of `parse_api_response`'s `try` block; `none` models an exception
(caught by the `except`, which returns `[]`). -/
def parse_api_response_aux (j : Val) : Option (List Val) := do
  let b ← pyGet j "body"
  let body ←
    if truthy b then pure b
    else do
      let r ← pyGetD j "response" .dnil
      pyGet r "body"
  let items ← pyGet body "items"
  if !truthy items then pure []
  else do
    let item ← pyGet items "item"
    if !truthy item then pure []
    else if isDict item then pure [item]
    else if isList item then pure (listElems item)
    else pure []

/-- Python `parse_api_response(json_data)`: the normalized record sequence, `[]` on
any exception. -/
def parse_api_response (j : Val) : List Val :=
  (parse_api_response_aux j).getD []

/-! ## Upsert Writer (`save_to_db_dynamic`, api_data_pipeline.py:237-287)

The destination table is modelled as the list of its rows in insertion order;
each row is the tuple of mapped column values (one `Val` per `mapping` entry,
`vnone` for SQL NULL). The `updated_at` timestamp that the `ON CONFLICT`
clause refreshes with `NOW()` is wall-clock metadata outside the modelled data
state. -/

/-- A table row: one value per column of the endpoint's field mapping. -/
abbrev Row := List Val

/-- A facility table: rows in insertion order, keyed by the pk column. -/
abbrev Table := List Row

/-- Association-list lookup used for `mapping[pk_column]` (a missing key is a
`KeyError`, hence `Option`). -/
def alookup : List (String × String) → String → Option String
  | [], _ => none
  | (k, v) :: rest, key => if k = key then some v else alookup rest key

/-- The position of the pk column among `db_columns = list(mapping.keys())`. -/
def pkIndex (mapping : List (String × String)) (pk_column : String) : Nat :=
  mapping.findIdx (fun p => p.1 == pk_column)

/-- The pk value of a row, i.e. its entry in the pk column. -/
def keyOf (idx : Nat) (r : Row) : Val :=
  r.getD idx .vnone

/-- One `INSERT … ON CONFLICT (pk) DO UPDATE` of a single row: if a row with
the same pk value exists it is overwritten in place (every non-key column set
to the incoming value — with equal pk values this is the whole row), otherwise
the row is appended. -/
def upsert (idx : Nat) (tbl : Table) (row : Row) : Table :=
  if tbl.any (fun r => keyOf idx r == keyOf idx row) then
    tbl.map (fun r => if keyOf idx r == keyOf idx row then row else r)
  else
    tbl ++ [row]

/-- Write step `cursor.executemany`: the page's batch applied row by row. -/
def applyBatch (idx : Nat) (tbl : Table) (batch : List Row) : Table :=
  batch.foldl (upsert idx) tbl

/-- The per-record key-generation step: `if pk_gen_keys:` (an empty list is
falsy) compute the synthetic id and run `item["generated_id"] = generated_id`
(which raises — `none` — when `item` is not a dict). -/
def processItem (md5hex : String → String) (pk_gen_keys : Option (List String))
    (item : Val) : Option Val :=
  match pk_gen_keys with
  | some (k :: ks) =>
      let gid := generate_unique_id md5hex item (k :: ks)
      if isDict item then
        some (dictSet item "generated_id"
          (match gid with | some s => .vstr s | none => .vnone))
      else none
  | _ => some item

/-- Whether a record survives the `if not item.get(json_pk_key): continue`
check: `some true` = kept, `some false` = skipped, `none` = an exception
(unhandled in `save_to_db_dynamic`, so the whole page write raises). -/
def keepRecord (md5hex : String → String) (mapping : List (String × String))
    (pk_column : String) (pk_gen_keys : Option (List String)) (item : Val) :
    Option Bool := do
  let item' ← processItem md5hex pk_gen_keys item
  let jk ← alookup mapping pk_column
  let pkv ← pyGet item' jk
  pure (truthy pkv)

/-- The projection of one record into a row:
`[item.get(mapping[db_col], None) for db_col in db_columns]`. -/
def projectRow : List (String × String) → Val → Option Row
  | [], _ => some []
  | p :: ps, item => do
      let v ← pyGetD item p.2 .vnone
      let rest ← projectRow ps item
      pure (v :: rest)

/-- The record loop of `save_to_db_dynamic` (api_data_pipeline.py:259-274):
returns the mutated records and `values_batch`; `none` models an exception
escaping the loop (e.g. `mapping[pk_column]` raising `KeyError`). -/
def buildBatch (md5hex : String → String) (mapping : List (String × String))
    (pk_column : String) (pk_gen_keys : Option (List String)) :
    List Val → Option (List Val × List Row)
  | [] => some ([], [])
  | item :: rest => do
      let item' ← processItem md5hex pk_gen_keys item
      let jk ← alookup mapping pk_column
      let pkv ← pyGet item' jk
      let (items', batch) ← buildBatch md5hex mapping pk_column pk_gen_keys rest
      if truthy pkv then do
        let row ← projectRow mapping item'
        pure (item' :: items', row :: batch)
      else
        pure (item' :: items', batch)

/-- Python `save_to_db_dynamic(conn, table_name, pk_column, mapping, data_list,
pk_gen_keys)`. `writeOk = false` models a database error during the batch
write: `conn.rollback()` leaves the table unchanged by this page and the
function returns 0. The result carries the table state, the returned count
and the (mutated) records; `none` models an exception escaping the function
(the record loop raising before any write). -/
def save_to_db_dynamic (md5hex : String → String) (tbl : Table)
    (pk_column : String) (mapping : List (String × String))
    (data_list : List Val) (pk_gen_keys : Option (List String))
    (writeOk : Bool) : Option (Table × Nat × List Val) :=
  if data_list.isEmpty then some (tbl, 0, data_list)
  else do
    let (items', batch) ← buildBatch md5hex mapping pk_column pk_gen_keys data_list
    if batch.isEmpty then pure (tbl, 0, items')
    else if writeOk then
      pure (applyBatch (pkIndex mapping pk_column) tbl batch, batch.length, items')
    else
      pure (tbl, 0, items')

/-- The number of records of a page that survive the skip check — the rows
the writer attempts (and reports) for that page. -/
def keptCount (md5hex : String → String) (mapping : List (String × String))
    (pk_column : String) (pk_gen_keys : Option (List String))
    (data : List Val) : Nat :=
  (data.filter
    (fun r => keepRecord md5hex mapping pk_column pk_gen_keys r == some true)).length

/-- The pk values of a table's rows, in row order. -/
def tblKeys (idx : Nat) (tbl : Table) : List Val :=
  tbl.map (keyOf idx)

/-- The row of a table holding a given pk value (first match). -/
def tblLookup (idx : Nat) (tbl : Table) (k : Val) : Option Row :=
  tbl.find? (fun r => keyOf idx r == k)

/-- The last row of a batch carrying a given pk value — the one whose values
survive a sequential upsert of the batch. -/
def lastWith (idx : Nat) : List Row → Val → Option Row
  | [], _ => none
  | r :: rest, k =>
      match lastWith idx rest k with
      | some r' => some r'
      | none => if keyOf idx r == k then some r else none

/-- The stringified fields per the spec's words (§4.1): `str(value)` for a
present field, the empty string for a missing one, failure when a present
value cannot be stringified. -/
def identitySpecParts (r : Val) : List String → Option (List String)
  | [] => some []
  | k :: ks => do
      let s ←
        match dictLookup r k with
        | some v => pyStr v
        | none => some ""
      let rest ← identitySpecParts r ks
      pure (s :: rest)

/-- Modelled from the spec (§4.1): the identity contract — a digest, here the
abstract `md5hex`, of the concatenation of `str(value-or-empty-string)` for
each field in the given order, a missing field contributing the empty string,
the whole generation failing if some present value cannot be stringified.
Stated only to be compared against `generate_unique_id`. -/
def identitySpec (md5hex : String → String) (r : Val)
    (keys : List String) : Option String :=
  match identitySpecParts r keys with
  | some parts => some (md5hex (String.join parts))
  | none => none

/-! ## Aggregation Recomputation (`update_summary_table`, api_data_pipeline.py:290-378)

The claim under check concerns the join condition
`REPLACE(TRIM(s.name), '역', '') = REPLACE(TRIM(cnt.stn_nm), '역', '')` of the
rebuild query. SQL strings are modelled as char lists; SQL `TRIM` strips
leading/trailing spaces, and `REPLACE(x, '역', '')` deletes every occurrence
of the single character `'역'`. -/

/-- SQL `TRIM(x)`: strip leading and trailing spaces. -/
def sqlTrim (s : List Char) : List Char :=
  ((s.dropWhile (fun c => c == ' ')).reverse.dropWhile (fun c => c == ' ')).reverse

/-- SQL `REPLACE(x, '역', '')`: delete every occurrence of the glyph. -/
def sqlReplaceYeok (s : List Char) : List Char :=
  s.filter (fun c => c ≠ '역')

/-- The normalization the query applies to both sides of the join. -/
def normStationName (s : List Char) : List Char :=
  sqlReplaceYeok (sqlTrim s)

/-- The join condition of the rebuild query: a facility-count group row joins
a canonical station row iff their normalized names coincide. -/
def stationJoins (canonical facility : List Char) : Bool :=
  normStationName canonical == normStationName facility

/-- Modelled from the spec: the normalization the claim describes — "stripping
only a trailing station-suffix glyph and surrounding whitespace": trim, drop
one trailing `'역'` if present, trim again. Used only to compare the claim's
join rule with the query's. -/
def specStripTrailingYeok (s : List Char) : List Char :=
  let t := sqlTrim s
  if t.getLast? == some '역' then sqlTrim t.dropLast else t

/-- The facility count the rebuild query attributes to one canonical station:
the number of facility rows (given by their `stn_nm`) joining it. Grouping by
`stn_nm` first and summing the group counts yields the same total. -/
def facilityCountFor (rows : List (List Char)) (canonical : List Char) : Nat :=
  (rows.filter (stationJoins canonical)).length

/-- The per-station summary rows the query emits (`GROUP BY s.name`): one row
per distinct canonical station name with its facility count. -/
def summaryCounts (stations : List (List Char)) (rows : List (List Char)) :
    List (List Char × Nat) :=
  stations.dedup.map (fun s => (s, facilityCountFor rows s))

/-! ## Pipeline Orchestrator (`lambda_handler`, api_data_pipeline.py:381-467)

The outside world is an `Env`: whether the DB connection opens, what each
HTTP page request returns, and whether each page's batch write succeeds.
The pagination `while True:` loop is driven by a fuel parameter bounding the
number of iterations; every theorem states the fuel it needs. -/

/-- Outcome of `requests.get` for one page: a raised exception (timeout etc.),
or a response with an HTTP status and — when the body parses as JSON — its
payload. -/
inductive FetchResult where
  | netErr
  | resp (status : Nat) (body : Option Val)
deriving DecidableEq

/-- The pipeline's environment. `md5hex` stands for `hashlib.md5(·).hexdigest()`. -/
structure Env where
  connOk : Bool
  fetch : String → Nat → FetchResult
  writeOk : String → Nat → Bool
  md5hex : String → String

/-- One entry of `API_CONFIG`. -/
structure EndpointConfig where
  endpoint : String
  table : String
  pk : String
  pk_gen_keys : Option (List String)
  mapping : List (String × String)
deriving DecidableEq

/-- The page size `num_of_rows = 1000` (api_data_pipeline.py:397). -/
def numOfRows : Nat := 1000

/-- The static `API_CONFIG` list (api_data_pipeline.py:24-188). -/
def API_CONFIG : List EndpointConfig := [
  { endpoint := "getWksnElvtr", table := "subway_elevator",
    pk := "generated_id", pk_gen_keys := some ["stnCd", "lineNm", "fcltNm"],
    mapping := [("generated_id", "generated_id"), ("mng_no", "mngNo"),
      ("stn_cd", "stnCd"), ("stn_nm", "stnNm"), ("line_nm", "lineNm"),
      ("fclt_nm", "fcltNm"), ("oprtng_situ", "oprtngSitu"),
      ("dtl_pstn", "dtlPstn"), ("pscp_nope", "pscpNope"),
      ("crtr_ymd", "crtrYmd"), ("elvtr_sn", "elvtrSn")] },
  { endpoint := "getWksnRstrm", table := "subway_toilet",
    pk := "generated_id", pk_gen_keys := some ["stnCd", "lineNm", "fcltNm"],
    mapping := [("generated_id", "generated_id"), ("mng_no", "mngNo"),
      ("stn_cd", "stnCd"), ("stn_nm", "stnNm"), ("line_nm", "lineNm"),
      ("fclt_nm", "fcltNm"), ("whlchr_acs_yn", "whlchrAcsPsbltyYn"),
      ("gate_inout", "gateInoutSe"), ("rstrm_info", "rstrmInfo"),
      ("stn_flr", "stnFlr"), ("crtr_ymd", "crtrYmd")] },
  { endpoint := "getWksnWhcllift", table := "subway_lift",
    pk := "generated_id", pk_gen_keys := some ["stnCd", "lineNm", "fcltNm"],
    mapping := [("generated_id", "generated_id"), ("mng_no", "mngNo"),
      ("stn_cd", "stnCd"), ("stn_nm", "stnNm"), ("line_nm", "lineNm"),
      ("fclt_nm", "fcltNm"), ("oprtng_situ", "oprtngSitu"),
      ("limit_wht", "limitWht"), ("bgng_flr_dtl", "bgngFlrDtlPstn"),
      ("end_flr_dtl", "endFlrDtlPstn"), ("crtr_ymd", "crtrYmd"),
      ("vcnt_entrc_no", "vcntEntrcNo")] },
  { endpoint := "getWksnMvnwlk", table := "subway_movingwalk",
    pk := "generated_id", pk_gen_keys := some ["stnCd", "lineNm", "fcltNm"],
    mapping := [("generated_id", "generated_id"), ("mng_no", "mngNo"),
      ("stn_cd", "stnCd"), ("stn_nm", "stnNm"), ("line_nm", "lineNm"),
      ("fclt_nm", "fcltNm"), ("oprtng_situ", "oprtngSitu"),
      ("crtr_ymd", "crtrYmd"), ("vcnt_entrc_no", "vcntEntrcNo")] },
  { endpoint := "getWksnWhclCharge", table := "subway_charger",
    pk := "generated_id", pk_gen_keys := some ["stnCd", "lineNm", "fcltNm"],
    mapping := [("generated_id", "generated_id"), ("mng_no", "mngNo"),
      ("stn_cd", "stnCd"), ("stn_nm", "stnNm"), ("line_nm", "lineNm"),
      ("fclt_nm", "fcltNm"), ("dtl_pstn", "dtlPstn"),
      ("cnnctr_se", "cnnctrSe"), ("elctc_fac_cnt", "elctcFacCnt"),
      ("utztn_crg", "utztnCrg"), ("oper_tel", "operInstTelno"),
      ("crtr_ymd", "crtrYmd")] },
  { endpoint := "getWksnSlng", table := "subway_sign_phone",
    pk := "generated_id", pk_gen_keys := some ["stnCd", "lineNm", "fcltNm"],
    mapping := [("generated_id", "generated_id"), ("stn_cd", "stnCd"),
      ("stn_nm", "stnNm"), ("line_nm", "lineNm"), ("fclt_nm", "fcltNm"),
      ("dtl_pstn", "dtlPstn"), ("vcnt_entrc_no", "vcntEntrcNo"),
      ("stn_flr", "stnFlr"), ("utztn_hr", "utztnHr"),
      ("crtr_ymd", "crtrYmd")] },
  { endpoint := "getWksnSafePlfm", table := "subway_safe_platform",
    pk := "generated_id", pk_gen_keys := some ["stnCd", "lineNm", "fcltNm"],
    mapping := [("generated_id", "generated_id"), ("stn_cd", "stnCd"),
      ("stn_nm", "stnNm"), ("line_nm", "lineNm"), ("fclt_nm", "fcltNm"),
      ("sfty_scf_yn", "sftyScfldEn"), ("mngr_tel", "mngrTelno"),
      ("crtr_ymd", "crtrYmd")] },
  { endpoint := "getWksnHelper", table := "subway_helper",
    pk := "generated_id", pk_gen_keys := some ["stnCd", "lineNm", "stnNm"],
    mapping := [("generated_id", "generated_id"), ("stn_cd", "stnCd"),
      ("stn_nm", "stnNm"), ("line_nm", "lineNm"),
      ("helper_tel", "trffcWksnHlprTelno"), ("crtr_ymd", "crtrYmd")] },
  { endpoint := "getWksnEsctr", table := "subway_escalator",
    pk := "generated_id", pk_gen_keys := some ["stnCd", "lineNm", "fcltNm"],
    mapping := [("generated_id", "generated_id"), ("mng_no", "mngNo"),
      ("stn_cd", "stnCd"), ("stn_nm", "stnNm"), ("line_nm", "lineNm"),
      ("fclt_nm", "fcltNm"), ("oprtng_situ", "oprtngSitu"),
      ("upbdnb_se", "upbdnbSe"), ("bgng_flr_dtl", "bgngFlrDtlPstn"),
      ("end_flr_dtl", "endFlrDtlPstn"), ("vcnt_entrc_no", "vcntEntrcNo"),
      ("crtr_ymd", "crtrYmd")] }]

/-- Header resolution (api_data_pipeline.py:423-425): `raw.get("header")`,
falling back to `raw.get("response", {}).get("header", {})`; `none` models an
`AttributeError` (caught by the loop's `except`, which breaks). -/
def resolveHeader (raw : Val) : Option Val := do
  let h ← pyGet raw "header"
  if truthy h then pure h
  else do
    let r ← pyGetD raw "response" .dnil
    pyGetD r "header" .dnil

/-- The check `header.get("resultCode") != "00"` is false exactly when the value is the
string `"00"`; `none` when `header` is not a dict (`.get` raises). -/
def resultCodeIsOk (header : Val) : Option Bool := do
  let rc ← pyGet header "resultCode"
  pure (rc == .vstr "00")

/-- The databases of one run: each facility table by name. -/
abbrev DB := List (String × Table)

/-- Reads a table (a table never written yet reads as empty). -/
def getTable : DB → String → Table
  | [], _ => []
  | (n, t) :: rest, name => if n = name then t else getTable rest name

/-- Stores a table back under its name. -/
def setTable : DB → String → Table → DB
  | [], name, tbl => [(name, tbl)]
  | (n, t) :: rest, name, tbl =>
      if n = name then (n, tbl) :: rest else (n, t) :: setTable rest name tbl

/-- The `while True:` pagination loop of `lambda_handler`
(api_data_pipeline.py:401-450) for one endpoint, with fuel bounding the
number of iterations (fuel 0 is an artefact, never hit in the theorems).
Accumulates the running written-count and the log of page requests made.
Every `break` — non-200 status, non-JSON body, bad result code, empty page,
an exception from the write — returns what has been accumulated so far. -/
def fetchLoop (env : Env) (cfg : EndpointConfig) :
    Nat → Nat → Table → Nat → List (String × Nat) →
    Table × Nat × List (String × Nat)
  | 0, _, tbl, acc, reqs => (tbl, acc, reqs)
  | fuel + 1, pageNo, tbl, acc, reqs =>
      let reqs := reqs ++ [(cfg.endpoint, pageNo)]
      match env.fetch cfg.endpoint pageNo with
      | .netErr => (tbl, acc, reqs)
      | .resp status body =>
        if status ≠ 200 then (tbl, acc, reqs)
        else match body with
        | none => (tbl, acc, reqs)
        | some raw =>
          match resolveHeader raw with
          | none => (tbl, acc, reqs)
          | some header =>
            match resultCodeIsOk header with
            | none => (tbl, acc, reqs)
            | some false => (tbl, acc, reqs)
            | some true =>
              let rows := parse_api_response raw
              if rows.isEmpty then (tbl, acc, reqs)
              else
                match save_to_db_dynamic env.md5hex tbl cfg.pk cfg.mapping rows
                    cfg.pk_gen_keys (env.writeOk cfg.endpoint pageNo) with
                | none => (tbl, acc, reqs)
                | some (tbl', count, _) =>
                  if rows.length < numOfRows then (tbl', acc + count, reqs)
                  else fetchLoop env cfg fuel (pageNo + 1) tbl' (acc + count) reqs

/-- The `for config in API_CONFIG:` loop: runs each endpoint's fetch loop in
order against the shared database, summing the written counts and
concatenating the request logs. -/
def runEndpoints (env : Env) (fuel : Nat) :
    List EndpointConfig → DB → DB × Nat × List (String × Nat)
  | [], db => (db, 0, [])
  | cfg :: rest, db =>
      let r := fetchLoop env cfg fuel 1 (getTable db cfg.table) 0 []
      let db' := setTable db cfg.table r.1
      let s := runEndpoints env fuel rest db'
      (s.1, r.2.1 + s.2.1, r.2.2 ++ s.2.2)

/-- The value `lambda_handler` returns: always `statusCode 200` with a body
`json.dumps(f"작업 완료: 총 {total}건 업데이트 및 요약 테이블 갱신")` — a
completion message embedding the total; the body string is modelled by the
total it reports. -/
structure LambdaResult where
  statusCode : Nat
  reportedTotal : Nat
deriving DecidableEq

/-- Everything observable about one run of `lambda_handler`. -/
structure RunOutcome where
  db : DB
  total : Nat
  summaryRuns : Nat
  requests : List (String × Nat)
  result : LambdaResult
deriving DecidableEq

/-- Python `lambda_handler(event, context)` (api_data_pipeline.py:381-467). When the
connection cannot be opened, `get_connection` raises, the outer `except` logs
`치명적 오류` and the handler falls through to the unconditional return — no
endpoint is attempted and `update_summary_table` never runs. Otherwise every
endpoint is attempted and the summary rebuild is invoked exactly once. -/
def lambda_handler (env : Env) (fuel : Nat) (db : DB) : RunOutcome :=
  if env.connOk then
    let r := runEndpoints env fuel API_CONFIG db
    { db := r.1, total := r.2.1, summaryRuns := 1, requests := r.2.2,
      result := { statusCode := 200, reportedTotal := r.2.1 } }
  else
    { db := db, total := 0, summaryRuns := 0, requests := [],
      result := { statusCode := 200, reportedTotal := 0 } }

/-! ## Concrete instances used by the witness theorems -/

/-- A stand-in digest function for witnesses; the theorems hold for any
`md5hex`, in particular for real MD5. -/
def sampleMd5 : String → String := fun s => s

/-- A small field mapping of the configured shape (pk column included). -/
def sampleMapping : List (String × String) :=
  [("generated_id", "generated_id"), ("stn_cd", "stnCd")]

/-- A record with a usable key field. -/
def sampleRec1 : Val := mkDict [("stnCd", .vstr "001")]

/-- A second record with a different key field. -/
def sampleRec2 : Val := mkDict [("stnCd", .vstr "002")]

/-- A record missing every configured key field. -/
def sampleRecNoKey : Val := mkDict [("other", .vstr "x")]

/-- An API envelope whose `items.item` is the given value. -/
def mkEnvelope (item : Val) : Val :=
  mkDict [("body", mkDict [("items", mkDict [("item", item)])])]

/-- A record carrying an explicit null for the `lineNm` key field. -/
def recWithNullLine : Val := mkDict [("stnCd", .vstr "001"), ("lineNm", .vnone)]

/-- The same record with the `lineNm` field absent. -/
def recWithoutLine : Val := mkDict [("stnCd", .vstr "001")]

/-- An environment whose persistent-store connection cannot be opened. -/
def envConnFail : Env :=
  { connOk := false, fetch := fun _ _ => .netErr,
    writeOk := fun _ _ => false, md5hex := fun s => s }

/-- A healthy envelope with a success result code and no items. -/
def emptyEnvelope : Val :=
  mkDict [("header", mkDict [("resultCode", .vstr "00")]),
          ("body", mkDict [("items", .vnone)])]

/-- An environment where every endpoint succeeds with zero records. -/
def envEmptyRun : Env :=
  { connOk := true, fetch := fun _ _ => .resp 200 (some emptyEnvelope),
    writeOk := fun _ _ => true, md5hex := fun s => s }

/-- An environment where every page request returns HTTP 500. -/
def envFirstPage500 : Env :=
  { connOk := true, fetch := fun _ _ => .resp 500 none,
    writeOk := fun _ _ => true, md5hex := fun s => s }

/-- A healthy envelope holding exactly one record. -/
def onePageEnvelope : Val :=
  mkDict [("header", mkDict [("resultCode", .vstr "00")]),
          ("body", mkDict [("items", mkDict [("item", mkList [sampleRec1])])])]

/-- An environment serving one short page (one record) on every request. -/
def envOnePage : Env :=
  { connOk := true, fetch := fun _ _ => .resp 200 (some onePageEnvelope),
    writeOk := fun _ _ => true, md5hex := fun s => s }

/-- A one-endpoint configuration matching `sampleMapping`. -/
def sampleCfg : EndpointConfig :=
  { endpoint := "getWksnElvtr", table := "subway_elevator",
    pk := "generated_id", pk_gen_keys := some ["stnCd"],
    mapping := sampleMapping }

/-! ## Verification -/

theorem dropWhile_space_eq_self {l : List Char} (h : ∀ c ∈ l, c ≠ ' ') :
    l.dropWhile (fun c => c == ' ') = l := by
  cases l with
  | nil => rfl
  | cons c r =>
      have hc : (c == ' ') = false := by
        simpa using h c (by simp)
      simp [List.dropWhile_cons, hc]

theorem sqlTrim_eq_self {l : List Char} (h : ∀ c ∈ l, c ≠ ' ') :
    sqlTrim l = l := by
  unfold sqlTrim
  rw [dropWhile_space_eq_self h,
    dropWhile_space_eq_self (fun c hc => h c (List.mem_reverse.mp hc)),
    List.reverse_reverse]

theorem normStationName_append_yeok {s : List Char} (h : ∀ c ∈ s, c ≠ ' ') :
    normStationName (s ++ ['역']) = normStationName s := by
  have h' : ∀ c ∈ s ++ ['역'], c ≠ ' ' := by
    intro c hc
    rcases List.mem_append.mp hc with hc | hc
    · exact h c hc
    · simp only [List.mem_singleton] at hc
      subst hc
      decide
  unfold normStationName
  rw [sqlTrim_eq_self h, sqlTrim_eq_self h']
  unfold sqlReplaceYeok
  rw [List.filter_append]
  simp

theorem normStationName_cons_yeok {s : List Char} (h : ∀ c ∈ s, c ≠ ' ') :
    normStationName ('역' :: s) = normStationName s := by
  have h' : ∀ c ∈ '역' :: s, c ≠ ' ' := by
    intro c hc
    rcases List.mem_cons.mp hc with hc | hc
    · subst hc; decide
    · exact h c hc
  unfold normStationName
  rw [sqlTrim_eq_self h, sqlTrim_eq_self h']
  unfold sqlReplaceYeok
  simp

/-- Claim C4 (counterexample): the rebuild query's join condition
`REPLACE(TRIM(·), '역', '') = REPLACE(TRIM(·), '역', '')` removes every
occurrence of the suffix glyph, not only a trailing one: the canonical name
`역삼` and the facility name `삼역` both normalize to `삼` and therefore join,
although the claim's trailing-only stripping rule keeps them distinct. -/
theorem update_summary_join_counterexample :
    stationJoins ['역', '삼'] ['삼', '역'] = true ∧
    specStripTrailingYeok ['역', '삼'] ≠ specStripTrailingYeok ['삼', '역'] := by
  decide

/-- Claim C4 (amended): the join normalizes both names by trimming surrounding
whitespace and removing every occurrence of the station-suffix glyph; in
particular, for any space-free canonical station name, a facility row in the
suffix form and one in the bare form (and even one with a leading glyph) all
join the same canonical station, so both contribute to its single summary
row, not to two rows. -/
theorem update_summary_join_normalization (s : List Char)
    (hs : ∀ c ∈ s, c ≠ ' ') :
    stationJoins s (s ++ ['역']) = true ∧
    stationJoins ('역' :: s) (s ++ ['역']) = true ∧
    summaryCounts [s] [s, s ++ ['역']] = [(s, 2)] := by
  have h1 : stationJoins s (s ++ ['역']) = true := by
    unfold stationJoins
    rw [normStationName_append_yeok hs]
    simp
  have h2 : stationJoins ('역' :: s) (s ++ ['역']) = true := by
    unfold stationJoins
    rw [normStationName_append_yeok hs, normStationName_cons_yeok hs]
    simp
  refine ⟨h1, h2, ?_⟩
  unfold summaryCounts facilityCountFor
  have hself : stationJoins s s = true := by
    unfold stationJoins
    simp
  simp [List.filter, hself, h1]

/-- Witness for `update_summary_join_normalization` at the station `서울`. -/
theorem update_summary_join_normalization_witness :
    (∀ c ∈ ['서', '울'], c ≠ ' ') ∧
    (stationJoins ['서', '울'] (['서', '울'] ++ ['역']) = true ∧
     stationJoins ('역' :: ['서', '울']) (['서', '울'] ++ ['역']) = true ∧
     summaryCounts [['서', '울']] [['서', '울'], ['서', '울'] ++ ['역']]
        = [(['서', '울'], 2)]) :=
  ⟨by decide, update_summary_join_normalization ['서', '울'] (by decide)⟩

theorem strParts_eq_identitySpecParts (r : Val) (hr : isDict r = true)
    (keys : List String) :
    strParts r keys = identitySpecParts r keys := by
  induction keys with
  | nil => rfl
  | cons k ks ih =>
      simp only [strParts, identitySpecParts, pyGetD, hr, if_pos]
      cases dictLookup r k with
      | none => simp [pyStr, pyStrM, ih]
      | some v => simp [ih]

/-- Claim C2: `generate_unique_id` computes, for any record (a mapping) and any
ordered field list, the digest (`md5hex` standing for the hex-encoded 128-bit
MD5) of the concatenation of `str(value-or-empty-string)` over the fields in
order, a missing field contributing the empty string — i.e. it agrees with
the spec-side `identitySpec`; and it is deterministic. -/
theorem generate_unique_id_meets_spec (md5hex : String → String) (r : Val)
    (keys : List String) (hr : isDict r = true) :
    generate_unique_id md5hex r keys = identitySpec md5hex r keys ∧
    ∀ (r' : Val) (keys' : List String),
      generate_unique_id md5hex r' keys' = generate_unique_id md5hex r' keys' := by
  refine ⟨?_, fun _ _ => rfl⟩
  unfold generate_unique_id identitySpec
  rw [strParts_eq_identitySpecParts r hr keys]

/-- Witness for `generate_unique_id_meets_spec` at a concrete record. -/
theorem generate_unique_id_meets_spec_witness :
    isDict recWithNullLine = true ∧
    (generate_unique_id sampleMd5 recWithNullLine ["stnCd", "lineNm"]
        = identitySpec sampleMd5 recWithNullLine ["stnCd", "lineNm"] ∧
     ∀ (r' : Val) (keys' : List String),
       generate_unique_id sampleMd5 r' keys'
          = generate_unique_id sampleMd5 r' keys') :=
  ⟨by decide,
   generate_unique_id_meets_spec sampleMd5 recWithNullLine ["stnCd", "lineNm"]
     (by decide)⟩

/-- Claim C10: a key field present with value `None` contributes the string
`"None"` to the hashed concatenation (because `str(None) = "None"`), while an
absent field contributes `""`; hence for any digest separating `"001None"`
from `"001"` (as MD5 does), the synthetic id of a record with an explicit
null key field differs from that of the otherwise-identical record lacking
the field. -/
theorem generate_unique_id_null_differs_from_missing
    (md5hex : String → String) (h : md5hex "001None" ≠ md5hex "001") :
    pyStr .vnone = some "None" ∧
    generate_unique_id md5hex recWithNullLine ["stnCd", "lineNm"]
      = some (md5hex "001None") ∧
    generate_unique_id md5hex recWithoutLine ["stnCd", "lineNm"]
      = some (md5hex "001") ∧
    generate_unique_id md5hex recWithNullLine ["stnCd", "lineNm"]
      ≠ generate_unique_id md5hex recWithoutLine ["stnCd", "lineNm"] := by
  have hj1 : String.join ["001", "None"] = "001None" := by decide
  have hj2 : String.join ["001", ""] = "001" := by decide
  have h1 : generate_unique_id md5hex recWithNullLine ["stnCd", "lineNm"]
      = some (md5hex "001None") := by
    show some (md5hex (String.join ["001", "None"])) = some (md5hex "001None")
    rw [hj1]
  have h2 : generate_unique_id md5hex recWithoutLine ["stnCd", "lineNm"]
      = some (md5hex "001") := by
    show some (md5hex (String.join ["001", ""])) = some (md5hex "001")
    rw [hj2]
  refine ⟨rfl, h1, h2, ?_⟩
  rw [h1, h2]
  intro heq
  exact h (Option.some.inj heq)

/-- Witness for `generate_unique_id_null_differs_from_missing` at a digest
that separates the two concatenations. -/
theorem generate_unique_id_null_differs_from_missing_witness :
    sampleMd5 "001None" ≠ sampleMd5 "001" ∧
    (pyStr .vnone = some "None" ∧
     generate_unique_id sampleMd5 recWithNullLine ["stnCd", "lineNm"]
        = some (sampleMd5 "001None") ∧
     generate_unique_id sampleMd5 recWithoutLine ["stnCd", "lineNm"]
        = some (sampleMd5 "001") ∧
     generate_unique_id sampleMd5 recWithNullLine ["stnCd", "lineNm"]
        ≠ generate_unique_id sampleMd5 recWithoutLine ["stnCd", "lineNm"]) :=
  ⟨by decide, generate_unique_id_null_differs_from_missing sampleMd5 (by decide)⟩

/-- Claim C9 (counterexample): the empty mapping is a single mapping, yet an
envelope whose `items.item` is `{}` normalizes to the empty sequence (the
`if not item_data` check fires on the falsy empty dict), while the same
mapping wrapped in a one-element array normalizes to a one-element sequence
— so the claimed equality does not hold for every envelope. -/
theorem parse_api_response_empty_mapping_counterexample :
    isDict Val.dnil = true ∧
    parse_api_response (mkEnvelope .dnil) = [] ∧
    parse_api_response (mkEnvelope (mkList [.dnil])) = [.dnil] ∧
    parse_api_response (mkEnvelope .dnil)
      ≠ parse_api_response (mkEnvelope (mkList [.dnil])) := by
  decide

/-- Claim C9 (amended): for every envelope whose `items.item` is a single
*non-empty* (truthy) mapping, normalization yields the one-element sequence
that the same envelope with the mapping wrapped in a one-element array also
yields; an item that is neither a mapping nor a sequence yields the empty
sequence, and the empty mapping yields the empty sequence. -/
theorem parse_api_response_single_mapping (item : Val)
    (hd : isDict item = true) (ht : truthy item = true) :
    parse_api_response (mkEnvelope item) = [item] ∧
    parse_api_response (mkEnvelope (mkList [item])) = [item] ∧
    (∀ v : Val, isDict v = false → isList v = false →
      parse_api_response (mkEnvelope v) = []) ∧
    parse_api_response (mkEnvelope .dnil) = [] := by
  have hdc : ∀ (k : String) (v rest : Val), truthy (.dcons k v rest) = true :=
    fun _ _ _ => rfl
  have hlc : ∀ (v rest : Val), truthy (.lcons v rest) = true := fun _ _ => rfl
  have hdl : ∀ (v rest : Val), isDict (.lcons v rest) = false := fun _ _ => rfl
  have hll : ∀ (v rest : Val), isList (.lcons v rest) = true := fun _ _ => rfl
  have hddc : ∀ (k : String) (v rest : Val), isDict (.dcons k v rest) = true :=
    fun _ _ _ => rfl
  have hlk : ∀ (key : String) (v rest : Val),
      dictLookup (.dcons key v rest) key = some v := by
    intro key v rest
    simp [dictLookup]
  refine ⟨?_, ?_, ?_, by decide⟩
  · simp [parse_api_response, parse_api_response_aux, mkEnvelope, mkDict,
      pyGet, pyGetD, hdc, hddc, hlk, ht, hd]
  · simp [parse_api_response, parse_api_response_aux, mkEnvelope, mkDict,
      mkList, pyGet, pyGetD, hdc, hddc, hlk, hlc, hdl, hll, listElems]
  · intro v hvd hvl
    cases htv : truthy v with
    | false =>
        simp [parse_api_response, parse_api_response_aux, mkEnvelope, mkDict,
          pyGet, pyGetD, hdc, hddc, hlk, htv]
    | true =>
        simp [parse_api_response, parse_api_response_aux, mkEnvelope, mkDict,
          pyGet, pyGetD, hdc, hddc, hlk, htv, hvd, hvl]

/-- Witness for `parse_api_response_single_mapping` at a one-field mapping. -/
theorem parse_api_response_single_mapping_witness :
    (isDict (mkDict [("a", .vstr "1")]) = true ∧
     truthy (mkDict [("a", .vstr "1")]) = true) ∧
    (parse_api_response (mkEnvelope (mkDict [("a", .vstr "1")]))
        = [mkDict [("a", .vstr "1")]] ∧
     parse_api_response (mkEnvelope (mkList [mkDict [("a", .vstr "1")]]))
        = [mkDict [("a", .vstr "1")]] ∧
     (∀ v : Val, isDict v = false → isList v = false →
        parse_api_response (mkEnvelope v) = []) ∧
     parse_api_response (mkEnvelope .dnil) = []) :=
  ⟨⟨by decide, by decide⟩,
   parse_api_response_single_mapping (mkDict [("a", .vstr "1")])
     (by decide) (by decide)⟩

/-- Claim C3 (counterexample): with the connection failing at startup the run
does abort before any endpoint (no page request, no write), but the returned
result is byte-for-byte the result of a fully successful zero-record run —
`statusCode 200` and a completion body reporting 0 — so the handler does not
report failure in its returned result; the fatal error is only logged. -/
theorem lambda_handler_conn_failure_counterexample :
    (lambda_handler envConnFail 1 []).requests = [] ∧
    (lambda_handler envConnFail 1 []).db = [] ∧
    (lambda_handler envConnFail 1 []).result
      = (lambda_handler envEmptyRun 1 []).result ∧
    (lambda_handler envConnFail 1 []).result.statusCode = 200 := by
  decide

/-- Claim C3 (amended): if the persistent-store connection cannot be opened at
startup, the run aborts before attempting any endpoint, writes no rows and
never rebuilds the summary; the failure is only logged — the returned result
still has `statusCode 200` and a completion body reporting 0 records. -/
theorem lambda_handler_conn_failure_aborts (env : Env) (fuel : Nat) (db : DB)
    (h : env.connOk = false) :
    (lambda_handler env fuel db).requests = [] ∧
    (lambda_handler env fuel db).db = db ∧
    (lambda_handler env fuel db).summaryRuns = 0 ∧
    (lambda_handler env fuel db).result
      = { statusCode := 200, reportedTotal := 0 } := by
  simp [lambda_handler, h]

/-- Witness for `lambda_handler_conn_failure_aborts` at `envConnFail`. -/
theorem lambda_handler_conn_failure_aborts_witness :
    envConnFail.connOk = false ∧
    ((lambda_handler envConnFail 2 []).requests = [] ∧
     (lambda_handler envConnFail 2 []).db = [] ∧
     (lambda_handler envConnFail 2 []).summaryRuns = 0 ∧
     (lambda_handler envConnFail 2 []).result
        = { statusCode := 200, reportedTotal := 0 }) :=
  ⟨by decide, lambda_handler_conn_failure_aborts envConnFail 2 [] (by decide)⟩

/-! ### Upsert machinery: keys, lookups and sequential-batch behaviour -/

theorem upsert_any_iff (idx : Nat) (tbl : Table) (row : Row) :
    (tbl.any fun r => keyOf idx r == keyOf idx row) = true
      ↔ keyOf idx row ∈ tblKeys idx tbl := by
  rw [List.any_eq_true]
  unfold tblKeys
  constructor
  · rintro ⟨r, hr, hk⟩
    exact (beq_iff_eq.mp hk) ▸ List.mem_map_of_mem (keyOf idx) hr
  · intro h
    rcases List.mem_map.mp h with ⟨r, hr, hk⟩
    exact ⟨r, hr, by simp [hk]⟩

theorem tblKeys_upsert (idx : Nat) (tbl : Table) (row : Row) :
    tblKeys idx (upsert idx tbl row)
      = if keyOf idx row ∈ tblKeys idx tbl then tblKeys idx tbl
        else tblKeys idx tbl ++ [keyOf idx row] := by
  unfold upsert
  by_cases hmem : keyOf idx row ∈ tblKeys idx tbl
  · rw [if_pos ((upsert_any_iff idx tbl row).mpr hmem), if_pos hmem]
    unfold tblKeys
    rw [List.map_map]
    apply List.map_congr_left
    intro r _
    by_cases hk : (keyOf idx r == keyOf idx row) = true
    · simp only [Function.comp_apply, if_pos hk]
      exact (beq_iff_eq.mp hk).symm
    · simp only [Function.comp_apply, if_neg hk]
  · rw [if_neg fun hc => hmem ((upsert_any_iff idx tbl row).mp hc), if_neg hmem]
    unfold tblKeys
    rw [List.map_append]
    rfl

theorem find?_map_replace_self (idx : Nat) (row : Row) :
    ∀ tbl : Table, (∃ r ∈ tbl, (keyOf idx r == keyOf idx row) = true) →
    (tbl.map fun r => if keyOf idx r == keyOf idx row then row else r).find?
        (fun r => keyOf idx r == keyOf idx row) = some row
  | [], h => absurd h (by simp)
  | r :: rest, h => by
      rw [List.map_cons]
      by_cases hr : (keyOf idx r == keyOf idx row) = true
      · rw [if_pos hr,
          List.find?_cons_of_pos (p := fun r => keyOf idx r == keyOf idx row)
            (a := row) _ (by simp)]
      · rw [if_neg hr,
          List.find?_cons_of_neg (p := fun r => keyOf idx r == keyOf idx row)
            (a := r) _ hr]
        refine find?_map_replace_self idx row rest ?_
        rcases h with ⟨r', hr', hk'⟩
        rcases List.mem_cons.mp hr' with h0 | h0
        · exact absurd (h0 ▸ hk') hr
        · exact ⟨r', h0, hk'⟩

theorem find?_map_replace_other (idx : Nat) (row : Row) (k : Val)
    (hk : (keyOf idx row == k) = false) :
    ∀ tbl : Table,
    (tbl.map fun r => if keyOf idx r == keyOf idx row then row else r).find?
        (fun r => keyOf idx r == k)
      = tbl.find? (fun r => keyOf idx r == k)
  | [] => rfl
  | r :: rest => by
      rw [List.map_cons]
      by_cases hr : (keyOf idx r == keyOf idx row) = true
      · have hrk : (keyOf idx r == k) = false := by
          rw [beq_iff_eq.mp hr]; exact hk
        rw [if_pos hr,
          List.find?_cons_of_neg (p := fun r => keyOf idx r == k) (a := row) _
            (by simp [hk]),
          List.find?_cons_of_neg (p := fun r => keyOf idx r == k) (a := r) _
            (by simp [hrk])]
        exact find?_map_replace_other idx row k hk rest
      · rw [if_neg hr]
        by_cases hrk : (keyOf idx r == k) = true
        · rw [List.find?_cons_of_pos (p := fun r => keyOf idx r == k)
              (a := r) _ hrk,
            List.find?_cons_of_pos (p := fun r => keyOf idx r == k)
              (a := r) _ hrk]
        · rw [List.find?_cons_of_neg (p := fun r => keyOf idx r == k)
              (a := r) _ hrk,
            List.find?_cons_of_neg (p := fun r => keyOf idx r == k)
              (a := r) _ hrk]
          exact find?_map_replace_other idx row k hk rest

theorem find?_append_single (idx : Nat) (row : Row) (k : Val) :
    ∀ tbl : Table, (∀ r ∈ tbl, (keyOf idx r == keyOf idx row) = false) →
    (tbl ++ [row]).find? (fun r => keyOf idx r == k)
      = if keyOf idx row == k then some row
        else tbl.find? (fun r => keyOf idx r == k)
  | [], _ => by
      by_cases hk : (keyOf idx row == k) = true
      · rw [List.nil_append,
          List.find?_cons_of_pos (p := fun r => keyOf idx r == k)
            (a := row) _ hk,
          if_pos hk]
      · rw [List.nil_append,
          List.find?_cons_of_neg (p := fun r => keyOf idx r == k)
            (a := row) _ hk,
          if_neg hk]
  | r :: rest, h => by
      have hr := h r (by simp)
      rw [List.cons_append]
      by_cases hk : (keyOf idx row == k) = true
      · have hrk : (keyOf idx r == k) = false := by
          rw [← beq_iff_eq.mp hk]; exact hr
        rw [List.find?_cons_of_neg (p := fun r => keyOf idx r == k) (a := r) _
            (by simp [hrk]),
          if_pos hk]
        have := find?_append_single idx row k rest
          (fun r' hr' => h r' (by simp [hr']))
        rwa [if_pos hk] at this
      · by_cases hrk : (keyOf idx r == k) = true
        · rw [List.find?_cons_of_pos (p := fun r => keyOf idx r == k)
              (a := r) _ hrk,
            if_neg hk,
            List.find?_cons_of_pos (p := fun r => keyOf idx r == k)
              (a := r) _ hrk]
        · rw [List.find?_cons_of_neg (p := fun r => keyOf idx r == k)
              (a := r) _ hrk,
            if_neg hk,
            List.find?_cons_of_neg (p := fun r => keyOf idx r == k)
              (a := r) _ hrk]
          have := find?_append_single idx row k rest
            (fun r' hr' => h r' (by simp [hr']))
          rwa [if_neg hk] at this

theorem tblLookup_upsert (idx : Nat) (tbl : Table) (row : Row) (k : Val) :
    tblLookup idx (upsert idx tbl row) k
      = if keyOf idx row == k then some row else tblLookup idx tbl k := by
  unfold upsert tblLookup
  by_cases hmem : (tbl.any fun r => keyOf idx r == keyOf idx row) = true
  · rw [if_pos hmem]
    by_cases hk : (keyOf idx row == k) = true
    · rw [if_pos hk]
      have hk' : keyOf idx row = k := beq_iff_eq.mp hk
      subst hk'
      exact find?_map_replace_self idx row tbl
        (by simpa [List.any_eq_true] using hmem)
    · rw [if_neg hk]
      exact find?_map_replace_other idx row k (by simpa using hk) tbl
  · rw [if_neg hmem]
    have hno : ∀ r ∈ tbl, (keyOf idx r == keyOf idx row) = false := by
      intro r hr
      by_contra hc
      exact hmem (List.any_eq_true.mpr ⟨r, hr, by simpa using hc⟩)
    exact find?_append_single idx row k tbl hno

theorem tblLookup_applyBatch (idx : Nat) :
    ∀ (batch : List Row) (tbl : Table) (k : Val),
    tblLookup idx (applyBatch idx tbl batch) k
      = match lastWith idx batch k with
        | some r => some r
        | none => tblLookup idx tbl k
  | [], tbl, k => by simp [applyBatch, lastWith]
  | r :: rest, tbl, k => by
      have hstep : applyBatch idx tbl (r :: rest)
          = applyBatch idx (upsert idx tbl r) rest := rfl
      rw [hstep, tblLookup_applyBatch idx rest (upsert idx tbl r) k]
      cases hlast : lastWith idx rest k with
      | some r' => simp [lastWith, hlast]
      | none =>
          simp only [lastWith, hlast]
          rw [tblLookup_upsert]
          by_cases hk : (keyOf idx r == k) = true
          · simp [hk]
          · simp [hk]

theorem mem_tblKeys_upsert_self (idx : Nat) (tbl : Table) (row : Row) :
    keyOf idx row ∈ tblKeys idx (upsert idx tbl row) := by
  rw [tblKeys_upsert]
  by_cases h : keyOf idx row ∈ tblKeys idx tbl
  · rwa [if_pos h]
  · rw [if_neg h]
    simp

theorem mem_tblKeys_upsert_mono (idx : Nat) (tbl : Table) (row : Row) (k : Val)
    (h : k ∈ tblKeys idx tbl) : k ∈ tblKeys idx (upsert idx tbl row) := by
  rw [tblKeys_upsert]
  by_cases h0 : keyOf idx row ∈ tblKeys idx tbl
  · rwa [if_pos h0]
  · rw [if_neg h0]
    exact List.mem_append_left _ h

theorem mem_tblKeys_applyBatch_mono (idx : Nat) :
    ∀ (batch : List Row) (tbl : Table) (k : Val), k ∈ tblKeys idx tbl →
      k ∈ tblKeys idx (applyBatch idx tbl batch)
  | [], _, _, h => h
  | r :: rest, tbl, k, h =>
      mem_tblKeys_applyBatch_mono idx rest (upsert idx tbl r) k
        (mem_tblKeys_upsert_mono idx tbl r k h)

theorem mem_tblKeys_applyBatch_of_mem (idx : Nat) :
    ∀ (batch : List Row) (tbl : Table) (r : Row), r ∈ batch →
      keyOf idx r ∈ tblKeys idx (applyBatch idx tbl batch)
  | [], _, _, h => absurd h (by simp)
  | b :: rest, tbl, r, h => by
      rcases List.mem_cons.mp h with h0 | h0
      · subst h0
        exact mem_tblKeys_applyBatch_mono idx rest (upsert idx tbl r) _
          (mem_tblKeys_upsert_self idx tbl r)
      · exact mem_tblKeys_applyBatch_of_mem idx rest (upsert idx tbl b) r h0

theorem tblKeys_applyBatch_covered (idx : Nat) :
    ∀ (batch : List Row) (tbl : Table),
      (∀ r ∈ batch, keyOf idx r ∈ tblKeys idx tbl) →
      tblKeys idx (applyBatch idx tbl batch) = tblKeys idx tbl
  | [], _, _ => rfl
  | r :: rest, tbl, h => by
      have hr := h r (by simp)
      have hkeys : tblKeys idx (upsert idx tbl r) = tblKeys idx tbl := by
        rw [tblKeys_upsert, if_pos hr]
      have hstep : applyBatch idx tbl (r :: rest)
          = applyBatch idx (upsert idx tbl r) rest := rfl
      rw [hstep, tblKeys_applyBatch_covered idx rest (upsert idx tbl r)
        (fun r' hr' => by rw [hkeys]; exact h r' (by simp [hr'])), hkeys]

theorem nodup_tblKeys_upsert (idx : Nat) (tbl : Table) (row : Row)
    (h : (tblKeys idx tbl).Nodup) :
    (tblKeys idx (upsert idx tbl row)).Nodup := by
  rw [tblKeys_upsert]
  by_cases h0 : keyOf idx row ∈ tblKeys idx tbl
  · rwa [if_pos h0]
  · rw [if_neg h0]
    simp [List.nodup_append, h, h0]

theorem nodup_tblKeys_applyBatch (idx : Nat) :
    ∀ (batch : List Row) (tbl : Table), (tblKeys idx tbl).Nodup →
      (tblKeys idx (applyBatch idx tbl batch)).Nodup
  | [], _, h => h
  | r :: rest, tbl, h =>
      nodup_tblKeys_applyBatch idx rest (upsert idx tbl r)
        (nodup_tblKeys_upsert idx tbl r h)

theorem tblLookup_eq_none (idx : Nat) (tbl : Table) (k : Val)
    (h : k ∉ tblKeys idx tbl) : tblLookup idx tbl k = none := by
  unfold tblLookup
  rw [List.find?_eq_none]
  intro r hr hc
  exact h ((beq_iff_eq.mp hc) ▸ List.mem_map_of_mem (keyOf idx) hr)

theorem table_ext (idx : Nat) :
    ∀ (t₁ t₂ : Table), tblKeys idx t₁ = tblKeys idx t₂ →
      (tblKeys idx t₁).Nodup →
      (∀ k, tblLookup idx t₁ k = tblLookup idx t₂ k) → t₁ = t₂
  | [], t₂, hk, _, _ => by
      have h2 : t₂.map (keyOf idx) = [] := hk.symm
      exact (List.map_eq_nil_iff.mp h2).symm
  | r :: t₁, t₂, hk, hnd, hl => by
      cases t₂ with
      | nil => exact absurd hk (by simp [tblKeys])
      | cons r₂ t₂ =>
          have hk' : keyOf idx r = keyOf idx r₂ ∧ tblKeys idx t₁ = tblKeys idx t₂ := by
            simpa [tblKeys] using hk
          have hr : r = r₂ := by
            have h1 : tblLookup idx (r :: t₁) (keyOf idx r) = some r := by
              unfold tblLookup
              rw [List.find?_cons_of_pos (p := fun x => keyOf idx x == keyOf idx r)
                (a := r) _ (by simp)]
            have h2 : tblLookup idx (r₂ :: t₂) (keyOf idx r) = some r₂ := by
              unfold tblLookup
              rw [List.find?_cons_of_pos (p := fun x => keyOf idx x == keyOf idx r)
                (a := r₂) _ (by simp [hk'.1])]
            have h3 := hl (keyOf idx r)
            rw [h1, h2] at h3
            exact Option.some.inj h3
          subst hr
          have hhead : keyOf idx r ∉ tblKeys idx t₁ := by
            have := hnd
            simp only [tblKeys, List.map_cons, List.nodup_cons] at this
            exact fun hc => this.1 (by simpa [tblKeys] using hc)
          have hnd' : (tblKeys idx t₁).Nodup := by
            have := hnd
            simp only [tblKeys, List.map_cons, List.nodup_cons] at this
            simpa [tblKeys] using this.2
          have htail : t₁ = t₂ := by
            refine table_ext idx t₁ t₂ hk'.2 hnd' ?_
            intro k
            by_cases hkk : (keyOf idx r == k) = true
            · have hkeq : keyOf idx r = k := beq_iff_eq.mp hkk
              rw [tblLookup_eq_none idx t₁ k (hkeq ▸ hhead),
                tblLookup_eq_none idx t₂ k (hkeq ▸ (hk'.2 ▸ hhead))]
            · have h3 := hl k
              unfold tblLookup at h3
              rw [List.find?_cons_of_neg (p := fun x => keyOf idx x == k)
                  (a := r) _ hkk,
                List.find?_cons_of_neg (p := fun x => keyOf idx x == k)
                  (a := r) _ hkk] at h3
              exact h3
          rw [htail]

theorem applyBatch_idem (idx : Nat) (tbl : Table) (batch : List Row)
    (h : (tblKeys idx tbl).Nodup) :
    applyBatch idx (applyBatch idx tbl batch) batch
      = applyBatch idx tbl batch := by
  have hcov : ∀ r ∈ batch, keyOf idx r ∈ tblKeys idx (applyBatch idx tbl batch) :=
    fun r hr => mem_tblKeys_applyBatch_of_mem idx batch tbl r hr
  apply table_ext idx
  · exact tblKeys_applyBatch_covered idx batch _ hcov
  · rw [tblKeys_applyBatch_covered idx batch _ hcov]
    exact nodup_tblKeys_applyBatch idx batch tbl h
  · intro k
    rw [tblLookup_applyBatch, tblLookup_applyBatch]
    cases lastWith idx batch k <;> simp

/-! ### The record loop of the Upsert Writer -/

theorem buildBatch_cons (md5hex : String → String)
    (mapping : List (String × String)) (pk_column : String)
    (ks? : Option (List String)) (item : Val) (rest : List Val) :
    buildBatch md5hex mapping pk_column ks? (item :: rest)
      = (processItem md5hex ks? item).bind fun item' =>
          (alookup mapping pk_column).bind fun jk =>
            (pyGet item' jk).bind fun pkv =>
              (buildBatch md5hex mapping pk_column ks? rest).bind fun p =>
                if truthy pkv then
                  (projectRow mapping item').bind fun row =>
                    some (item' :: p.1, row :: p.2)
                else some (item' :: p.1, p.2) := rfl

theorem keepRecord_eq (md5hex : String → String)
    (mapping : List (String × String)) (pk_column : String)
    (ks? : Option (List String)) (item : Val) :
    keepRecord md5hex mapping pk_column ks? item
      = (processItem md5hex ks? item).bind fun item' =>
          (alookup mapping pk_column).bind fun jk =>
            (pyGet item' jk).bind fun pkv => some (truthy pkv) := rfl

theorem save_to_db_dynamic_eq (md5hex : String → String) (tbl : Table)
    (pk_column : String) (mapping : List (String × String))
    (data : List Val) (ks? : Option (List String)) (writeOk : Bool) :
    save_to_db_dynamic md5hex tbl pk_column mapping data ks? writeOk
      = if data.isEmpty then some (tbl, 0, data)
        else
          (buildBatch md5hex mapping pk_column ks? data).bind fun p =>
            if p.2.isEmpty then some (tbl, 0, p.1)
            else if writeOk then
              some (applyBatch (pkIndex mapping pk_column) tbl p.2,
                p.2.length, p.1)
            else some (tbl, 0, p.1) := rfl

theorem buildBatch_length (md5hex : String → String)
    (mapping : List (String × String)) (pk_column : String)
    (ks? : Option (List String)) :
    ∀ (data its : List Val) (batch : List Row),
      buildBatch md5hex mapping pk_column ks? data = some (its, batch) →
      batch.length = keptCount md5hex mapping pk_column ks? data
  | [], its, batch, h => by
      simp only [buildBatch, Option.some.injEq, Prod.mk.injEq] at h
      simp [← h.2, keptCount]
  | item :: rest, its, batch, h => by
      rw [buildBatch_cons] at h
      cases hpi : processItem md5hex ks? item with
      | none => rw [hpi] at h; cases h
      | some item' =>
        rw [hpi] at h
        simp only [Option.some_bind] at h
        cases hjk : alookup mapping pk_column with
        | none => rw [hjk] at h; cases h
        | some jk =>
          rw [hjk] at h
          simp only [Option.some_bind] at h
          cases hpk : pyGet item' jk with
          | none => rw [hpk] at h; cases h
          | some pkv =>
            rw [hpk] at h
            simp only [Option.some_bind] at h
            cases hbb : buildBatch md5hex mapping pk_column ks? rest with
            | none => rw [hbb] at h; cases h
            | some p =>
              rw [hbb] at h
              simp only [Option.some_bind] at h
              have hkeep : keepRecord md5hex mapping pk_column ks? item
                  = some (truthy pkv) := by
                rw [keepRecord_eq, hpi]
                simp only [Option.some_bind]
                rw [hjk]
                simp only [Option.some_bind]
                rw [hpk]
                simp only [Option.some_bind]
              have ih := buildBatch_length md5hex mapping pk_column ks? rest
                p.1 p.2 (by rw [hbb])
              cases htr : truthy pkv with
              | true =>
                  rw [htr] at h
                  simp only [if_true] at h
                  cases hpr : projectRow mapping item' with
                  | none => rw [hpr] at h; cases h
                  | some row =>
                    rw [hpr] at h
                    simp only [Option.some_bind, Option.some.injEq] at h
                    have hbatch : batch = row :: p.2 := by
                      have := h
                      simp only [Prod.mk.injEq] at this
                      exact this.2.symm
                    rw [hbatch]
                    unfold keptCount
                    rw [List.filter_cons]
                    rw [htr] at hkeep
                    simp only [hkeep]
                    simp only [List.length_cons]
                    unfold keptCount at ih
                    simp [ih]
              | false =>
                  rw [htr] at h
                  simp only [Bool.false_eq_true, if_false,
                    Option.some.injEq] at h
                  have hbatch : batch = p.2 := by
                    simp only [Prod.mk.injEq] at h
                    exact h.2.symm
                  rw [hbatch]
                  unfold keptCount
                  rw [List.filter_cons]
                  rw [htr] at hkeep
                  simp only [hkeep]
                  unfold keptCount at ih
                  simp [ih]

theorem buildBatch_append (md5hex : String → String)
    (mapping : List (String × String)) (pk_column : String)
    (ks? : Option (List String)) :
    ∀ (xs ys : List Val),
    buildBatch md5hex mapping pk_column ks? (xs ++ ys)
      = (buildBatch md5hex mapping pk_column ks? xs).bind fun a =>
          (buildBatch md5hex mapping pk_column ks? ys).bind fun b =>
            some (a.1 ++ b.1, a.2 ++ b.2)
  | [], ys => by
      simp only [List.nil_append, buildBatch, Option.some_bind,
        List.nil_append]
      cases buildBatch md5hex mapping pk_column ks? ys <;> simp
  | x :: xs, ys => by
      rw [List.cons_append, buildBatch_cons, buildBatch_cons,
        buildBatch_append md5hex mapping pk_column ks? xs ys]
      cases hpi : processItem md5hex ks? x with
      | none => rfl
      | some item' =>
        simp only [Option.some_bind]
        cases hjk : alookup mapping pk_column with
        | none => rfl
        | some jk =>
          simp only [Option.some_bind]
          cases hpk : pyGet item' jk with
          | none => rfl
          | some pkv =>
            simp only [Option.some_bind]
            cases hbx : buildBatch md5hex mapping pk_column ks? xs with
            | none => simp
            | some a =>
              simp only [Option.some_bind]
              cases hby : buildBatch md5hex mapping pk_column ks? ys with
              | none =>
                  cases htr : truthy pkv with
                  | false => simp [htr]
                  | true =>
                      cases hpr : projectRow mapping item' <;> simp [htr, hpr]
              | some b =>
                  cases htr : truthy pkv with
                  | false => simp [htr]
                  | true =>
                      cases hpr : projectRow mapping item' <;> simp [htr, hpr]

theorem buildBatch_skip (md5hex : String → String)
    (mapping : List (String × String)) (pk_column : String)
    (ks? : Option (List String)) (bad : Val) (rest : List Val) (item' : Val)
    (hpi : processItem md5hex ks? bad = some item')
    (hskip : keepRecord md5hex mapping pk_column ks? bad = some false) :
    buildBatch md5hex mapping pk_column ks? (bad :: rest)
      = (buildBatch md5hex mapping pk_column ks? rest).bind fun p =>
          some (item' :: p.1, p.2) := by
  rw [keepRecord_eq, hpi] at hskip
  simp only [Option.some_bind] at hskip
  rw [buildBatch_cons, hpi]
  simp only [Option.some_bind]
  cases hjk : alookup mapping pk_column with
  | none => rw [hjk] at hskip; cases hskip
  | some jk =>
    rw [hjk] at hskip
    simp only [Option.some_bind] at hskip
    cases hpk : pyGet item' jk with
    | none => rw [hpk] at hskip; cases hskip
    | some pkv =>
      rw [hpk] at hskip
      simp only [Option.some_bind, Option.some.injEq] at hskip
      simp only [Option.some_bind]
      cases buildBatch md5hex mapping pk_column ks? rest <;>
        simp [hpk, hskip]

/-- Claim C1: the Upsert Writer is idempotent at page granularity — re-running
`save_to_db_dynamic` on the table it produced, with the identical page of
records, returns the very same table state (data columns; the `updated_at`
wall-clock refresh is metadata outside the modelled state) and the same
count, and that count equals the number of non-skipped records of the page
(rows attempted, not rows changed), not zero. The table's pk values are
assumed distinct, as a primary-key column guarantees. -/
theorem save_to_db_dynamic_idempotent (md5hex : String → String) (tbl : Table)
    (pk_column : String) (mapping : List (String × String)) (data : List Val)
    (ks? : Option (List String)) (t₁ : Table) (c₁ : Nat) (its₁ : List Val)
    (hnodup : (tblKeys (pkIndex mapping pk_column) tbl).Nodup)
    (h₁ : save_to_db_dynamic md5hex tbl pk_column mapping data ks? true
        = some (t₁, c₁, its₁)) :
    save_to_db_dynamic md5hex t₁ pk_column mapping data ks? true
      = some (t₁, c₁, its₁) ∧
    c₁ = keptCount md5hex mapping pk_column ks? data := by
  rw [save_to_db_dynamic_eq] at h₁ ⊢
  by_cases hemp : data.isEmpty = true
  · rw [if_pos hemp] at h₁ ⊢
    have hnil : data = [] := List.isEmpty_iff.mp hemp
    simp only [Option.some.injEq, Prod.mk.injEq] at h₁
    obtain ⟨ht, hc, hits⟩ := h₁
    subst ht
    refine ⟨by simp [hc, hits], ?_⟩
    rw [← hc, hnil]
    simp [keptCount]
  · rw [if_neg hemp] at h₁ ⊢
    cases hb : buildBatch md5hex mapping pk_column ks? data with
    | none => rw [hb] at h₁; simp at h₁
    | some p =>
      rw [hb] at h₁
      obtain ⟨its, batch⟩ := p
      have hlen : batch.length = keptCount md5hex mapping pk_column ks? data :=
        buildBatch_length md5hex mapping pk_column ks? data its batch
          (by rw [hb])
      cases batch with
      | nil =>
          have hred : ∀ t : Table,
              ((some ((its, ([] : List Row)))).bind fun q =>
                if q.2.isEmpty then some (t, 0, q.1)
                else if (true : Bool) then
                  some (applyBatch (pkIndex mapping pk_column) t q.2,
                    q.2.length, q.1)
                else some (t, 0, q.1)) = some (t, 0, its) := by
            intro t
            simp
          rw [hred tbl] at h₁
          simp only [Option.some.injEq, Prod.mk.injEq] at h₁
          obtain ⟨ht, hc, hits⟩ := h₁
          subst ht
          rw [hred tbl]
          refine ⟨by simp [hc, hits], ?_⟩
          rw [← hc]
          simpa using hlen
      | cons b bs =>
          have hred : ∀ t : Table,
              ((some ((its, b :: bs))).bind fun q =>
                if q.2.isEmpty then some (t, 0, q.1)
                else if (true : Bool) then
                  some (applyBatch (pkIndex mapping pk_column) t q.2,
                    q.2.length, q.1)
                else some (t, 0, q.1))
              = some (applyBatch (pkIndex mapping pk_column) t (b :: bs),
                  (b :: bs).length, its) := by
            intro t
            simp
          rw [hred tbl] at h₁
          simp only [Option.some.injEq, Prod.mk.injEq] at h₁
          obtain ⟨ht, hc, hits⟩ := h₁
          rw [hred t₁]
          refine ⟨?_, by rw [← hc]; exact hlen⟩
          rw [← ht, applyBatch_idem _ tbl (b :: bs) hnodup]
          simp [hc, hits]

/-- Witness for `save_to_db_dynamic_idempotent` at a concrete two-record page. -/
theorem save_to_db_dynamic_idempotent_witness :
    ((tblKeys (pkIndex sampleMapping "generated_id") []).Nodup ∧
     save_to_db_dynamic sampleMd5 [] "generated_id" sampleMapping
        [sampleRec1, sampleRec2] (some ["stnCd"]) true
       = some ([[.vstr "001", .vstr "001"], [.vstr "002", .vstr "002"]], 2,
           [mkDict [("stnCd", .vstr "001"), ("generated_id", .vstr "001")],
            mkDict [("stnCd", .vstr "002"), ("generated_id", .vstr "002")]])) ∧
    (save_to_db_dynamic sampleMd5
        [[.vstr "001", .vstr "001"], [.vstr "002", .vstr "002"]]
        "generated_id" sampleMapping [sampleRec1, sampleRec2]
        (some ["stnCd"]) true
       = some ([[.vstr "001", .vstr "001"], [.vstr "002", .vstr "002"]], 2,
           [mkDict [("stnCd", .vstr "001"), ("generated_id", .vstr "001")],
            mkDict [("stnCd", .vstr "002"), ("generated_id", .vstr "002")]]) ∧
     2 = keptCount sampleMd5 sampleMapping "generated_id" (some ["stnCd"])
        [sampleRec1, sampleRec2]) :=
  ⟨⟨by decide, by decide⟩,
   save_to_db_dynamic_idempotent sampleMd5 [] "generated_id" sampleMapping
     [sampleRec1, sampleRec2] (some ["stnCd"])
     [[.vstr "001", .vstr "001"], [.vstr "002", .vstr "002"]] 2
     [mkDict [("stnCd", .vstr "001"), ("generated_id", .vstr "001")],
      mkDict [("stnCd", .vstr "002"), ("generated_id", .vstr "002")]]
     (by decide) (by decide)⟩

/-- Claim C7: within one page, a record whose resolved primary-key source value
is falsy (empty or missing — including a record whose synthetic-key
generation failed, which stores `None` under `generated_id`) is skipped
without error: the writer's resulting table state and returned count are
exactly those for the same page without that record, and the count
(`keptCount`) excludes the skipped record while every sibling is still
projected and written. -/
theorem save_to_db_dynamic_skips_bad_record (md5hex : String → String)
    (tbl : Table) (pk_column : String) (mapping : List (String × String))
    (ks? : Option (List String)) (xs ys : List Val) (bad : Val)
    (writeOk : Bool)
    (hbad : keepRecord md5hex mapping pk_column ks? bad = some false) :
    (save_to_db_dynamic md5hex tbl pk_column mapping (xs ++ bad :: ys) ks?
        writeOk).map (fun r => (r.1, r.2.1))
      = (save_to_db_dynamic md5hex tbl pk_column mapping (xs ++ ys) ks?
          writeOk).map (fun r => (r.1, r.2.1)) ∧
    keptCount md5hex mapping pk_column ks? (xs ++ bad :: ys)
      = keptCount md5hex mapping pk_column ks? (xs ++ ys) := by
  have hpi : ∃ item', processItem md5hex ks? bad = some item' := by
    rw [keepRecord_eq] at hbad
    cases hp : processItem md5hex ks? bad with
    | none => rw [hp] at hbad; cases hbad
    | some item' => exact ⟨item', rfl⟩
  obtain ⟨item', hpi⟩ := hpi
  constructor
  · by_cases hxy : (xs ++ ys).isEmpty = true
    · have hx : xs = [] := by
        rcases List.append_eq_nil.mp (List.isEmpty_iff.mp hxy) with ⟨h1, _⟩
        exact h1
      have hy : ys = [] := by
        rcases List.append_eq_nil.mp (List.isEmpty_iff.mp hxy) with ⟨_, h2⟩
        exact h2
      subst hx
      subst hy
      rw [save_to_db_dynamic_eq, save_to_db_dynamic_eq]
      simp only [List.nil_append, List.isEmpty_nil, if_true,
        List.isEmpty_cons, Bool.false_eq_true, if_false]
      rw [buildBatch_skip md5hex mapping pk_column ks? bad [] item' hpi hbad]
      simp [buildBatch]
    · rw [save_to_db_dynamic_eq, save_to_db_dynamic_eq]
      have hne1 : ((xs ++ bad :: ys).isEmpty = true) = False := by
        simp [List.isEmpty_iff]
      rw [if_neg (by simp [List.isEmpty_iff]), if_neg (by
        intro hc
        exact hxy hc)]
      rw [buildBatch_append md5hex mapping pk_column ks? xs (bad :: ys),
        buildBatch_append md5hex mapping pk_column ks? xs ys,
        buildBatch_skip md5hex mapping pk_column ks? bad ys item' hpi hbad]
      cases hbx : buildBatch md5hex mapping pk_column ks? xs with
      | none => rfl
      | some a =>
        simp only [Option.some_bind]
        cases hby : buildBatch md5hex mapping pk_column ks? ys with
        | none => rfl
        | some b =>
          simp only [Option.some_bind]
          by_cases hbe : (a.2 ++ b.2).isEmpty = true
          · rw [if_pos hbe, if_pos hbe]
            rfl
          · rw [if_neg hbe, if_neg hbe]
            by_cases hw : writeOk = true
            · rw [if_pos hw, if_pos hw]
              rfl
            · rw [if_neg hw, if_neg hw]
              rfl
  · unfold keptCount
    rw [List.filter_append, List.filter_append, List.filter_cons]
    simp [hbad]

/-- Witness for `save_to_db_dynamic_skips_bad_record`: a page holding one
good record and one record missing its key field. -/
theorem save_to_db_dynamic_skips_bad_record_witness :
    keepRecord sampleMd5 sampleMapping "stn_cd" none sampleRecNoKey
        = some false ∧
    ((save_to_db_dynamic sampleMd5 [] "stn_cd" sampleMapping
        ([sampleRec1] ++ sampleRecNoKey :: []) none true).map
          (fun r => (r.1, r.2.1))
      = (save_to_db_dynamic sampleMd5 [] "stn_cd" sampleMapping
          ([sampleRec1] ++ []) none true).map (fun r => (r.1, r.2.1)) ∧
     keptCount sampleMd5 sampleMapping "stn_cd" none
        ([sampleRec1] ++ sampleRecNoKey :: [])
      = keptCount sampleMd5 sampleMapping "stn_cd" none ([sampleRec1] ++ [])) :=
  ⟨by decide,
   save_to_db_dynamic_skips_bad_record sampleMd5 [] "stn_cd" sampleMapping
     none [sampleRec1] [] sampleRecNoKey true (by decide)⟩

/-- Claim C8: on a database error during a page's batch write the Upsert Writer
rolls the whole page back — the table state is unchanged and the returned
count is zero — and the pipeline continues: a full page whose write failed
still advances the pagination loop to the next page, and the run as a whole
always completes with `statusCode 200`. -/
theorem save_to_db_dynamic_rolls_back (md5hex : String → String)
    (tbl : Table) (pk_column : String) (mapping : List (String × String))
    (data : List Val) (ks? : Option (List String)) (its : List Val)
    (batch : List Row)
    (hb : buildBatch md5hex mapping pk_column ks? data = some (its, batch))
    (hne : batch ≠ []) :
    save_to_db_dynamic md5hex tbl pk_column mapping data ks? false
      = some (tbl, 0, its) ∧
    (∀ (env : Env) (cfg : EndpointConfig) (fuel pageNo : Nat) (tbl₀ : Table)
        (acc : Nat) (reqs : List (String × Nat)) (raw header : Val)
        (p : List Val × List Row),
      env.fetch cfg.endpoint pageNo = .resp 200 (some raw) →
      resolveHeader raw = some header →
      resultCodeIsOk header = some true →
      (parse_api_response raw).length = numOfRows →
      env.writeOk cfg.endpoint pageNo = false →
      buildBatch env.md5hex cfg.mapping cfg.pk cfg.pk_gen_keys
          (parse_api_response raw) = some p →
      fetchLoop env cfg (fuel + 1) pageNo tbl₀ acc reqs
        = fetchLoop env cfg fuel (pageNo + 1) tbl₀ acc
            (reqs ++ [(cfg.endpoint, pageNo)])) ∧
    (∀ (env : Env) (fuel : Nat) (db : DB),
      (lambda_handler env fuel db).result.statusCode = 200) := by
  refine ⟨?_, ?_, ?_⟩
  · have hdne : data ≠ [] := by
      intro hc
      subst hc
      simp only [buildBatch, Option.some.injEq, Prod.mk.injEq] at hb
      exact hne hb.2.symm
    rw [save_to_db_dynamic_eq, if_neg (by simpa using hdne), hb]
    simp only [Option.some_bind]
    rw [if_neg (by simpa using hne)]
    simp
  · intro env cfg fuel pageNo tbl₀ acc reqs raw header p hf hh hrc hlen hw hbb
    have hrows : (parse_api_response raw).isEmpty = false := by
      rw [List.isEmpty_eq_false_iff_exists_mem]
      cases hr : parse_api_response raw with
      | nil => rw [hr] at hlen; simp [numOfRows] at hlen
      | cons x l => exact ⟨x, by simp⟩
    have hsave : save_to_db_dynamic env.md5hex tbl₀ cfg.pk cfg.mapping
        (parse_api_response raw) cfg.pk_gen_keys false = some (tbl₀, 0, p.1) := by
      rw [save_to_db_dynamic_eq, if_neg (by simp [hrows]), hbb]
      simp only [Option.some_bind]
      by_cases hpe : p.2.isEmpty = true
      · rw [if_pos hpe]
      · rw [if_neg hpe]
        simp
    simp only [fetchLoop, hf]
    rw [if_neg (by simp)]
    simp only [hh, hrc, hrows, Bool.false_eq_true, if_false, hw, hsave]
    rw [if_neg (by simp [hlen])]
    simp
  · intro env fuel db
    by_cases hc : env.connOk = true
    · simp [lambda_handler, hc]
    · simp [lambda_handler, hc]

/-- Witness for `save_to_db_dynamic_rolls_back` at a one-record page. -/
theorem save_to_db_dynamic_rolls_back_witness :
    (buildBatch sampleMd5 sampleMapping "generated_id" (some ["stnCd"])
        [sampleRec1]
      = some ([mkDict [("stnCd", .vstr "001"), ("generated_id", .vstr "001")]],
          [[.vstr "001", .vstr "001"]]) ∧
     ([[.vstr "001", .vstr "001"]] : List Row) ≠ []) ∧
    save_to_db_dynamic sampleMd5 [] "generated_id" sampleMapping [sampleRec1]
        (some ["stnCd"]) false
      = some ([], 0,
          [mkDict [("stnCd", .vstr "001"), ("generated_id", .vstr "001")]]) :=
  ⟨⟨by decide, by decide⟩,
   (save_to_db_dynamic_rolls_back sampleMd5 [] "generated_id" sampleMapping
     [sampleRec1] (some ["stnCd"])
     [mkDict [("stnCd", .vstr "001"), ("generated_id", .vstr "001")]]
     [[.vstr "001", .vstr "001"]] (by decide) (by decide)).1⟩

/-! ### The pagination loop and the orchestrator -/

theorem fetchLoop_requests_shape (env : Env) (cfg : EndpointConfig) :
    ∀ (fuel pageNo : Nat) (tbl : Table) (acc : Nat)
      (reqs : List (String × Nat)),
    ∃ tail, (fetchLoop env cfg (fuel + 1) pageNo tbl acc reqs).2.2
      = reqs ++ (cfg.endpoint, pageNo) :: tail := by
  intro fuel
  induction fuel with
  | zero =>
      intro pageNo tbl acc reqs
      simp only [fetchLoop]
      cases env.fetch cfg.endpoint pageNo with
      | netErr => exact ⟨[], rfl⟩
      | resp status body =>
        try dsimp only
        by_cases hs : status ≠ 200
        · rw [if_pos hs]
          exact ⟨[], rfl⟩
        · rw [if_neg hs]
          cases body with
          | none => exact ⟨[], rfl⟩
          | some raw =>
            try dsimp only
            cases resolveHeader raw with
            | none => exact ⟨[], rfl⟩
            | some header =>
              try dsimp only
              cases resultCodeIsOk header with
              | none => exact ⟨[], rfl⟩
              | some ok =>
                try dsimp only
                cases ok with
                | false => exact ⟨[], rfl⟩
                | true =>
                  try dsimp only
                  by_cases hro : (parse_api_response raw).isEmpty = true
                  · rw [if_pos hro]
                    exact ⟨[], rfl⟩
                  · rw [if_neg hro]
                    cases save_to_db_dynamic env.md5hex tbl cfg.pk cfg.mapping
                        (parse_api_response raw) cfg.pk_gen_keys
                        (env.writeOk cfg.endpoint pageNo) with
                    | none => exact ⟨[], rfl⟩
                    | some t =>
                      obtain ⟨tbl', count, its⟩ := t
                      try dsimp only
                      by_cases hlt :
                          (parse_api_response raw).length < numOfRows
                      · rw [if_pos hlt]
                        exact ⟨[], rfl⟩
                      · rw [if_neg hlt]
                        exact ⟨[], rfl⟩
  | succ fuel ih =>
      intro pageNo tbl acc reqs
      simp only [fetchLoop]
      cases env.fetch cfg.endpoint pageNo with
      | netErr => exact ⟨[], rfl⟩
      | resp status body =>
        try dsimp only
        by_cases hs : status ≠ 200
        · rw [if_pos hs]
          exact ⟨[], rfl⟩
        · rw [if_neg hs]
          cases body with
          | none => exact ⟨[], rfl⟩
          | some raw =>
            try dsimp only
            cases resolveHeader raw with
            | none => exact ⟨[], rfl⟩
            | some header =>
              try dsimp only
              cases resultCodeIsOk header with
              | none => exact ⟨[], rfl⟩
              | some ok =>
                try dsimp only
                cases ok with
                | false => exact ⟨[], rfl⟩
                | true =>
                  try dsimp only
                  by_cases hro : (parse_api_response raw).isEmpty = true
                  · rw [if_pos hro]
                    exact ⟨[], rfl⟩
                  · rw [if_neg hro]
                    cases save_to_db_dynamic env.md5hex tbl cfg.pk cfg.mapping
                        (parse_api_response raw) cfg.pk_gen_keys
                        (env.writeOk cfg.endpoint pageNo) with
                    | none => exact ⟨[], rfl⟩
                    | some t =>
                      obtain ⟨tbl', count, its⟩ := t
                      try dsimp only
                      by_cases hlt :
                          (parse_api_response raw).length < numOfRows
                      · rw [if_pos hlt]
                        exact ⟨[], rfl⟩
                      · rw [if_neg hlt]
                        obtain ⟨tail', htail⟩ := ih (pageNo + 1) tbl'
                          (acc + count) (reqs ++ [(cfg.endpoint, pageNo)])
                        refine ⟨(cfg.endpoint, pageNo + 1) :: tail', ?_⟩
                        show (fetchLoop env cfg (fuel + 1) (pageNo + 1) tbl'
                            (acc + count)
                            (reqs ++ [(cfg.endpoint, pageNo)])).2.2 = _
                        rw [htail]
                        simp

/-- Claim C5: a fetched page whose normalized record count is below the
requested page size (1000) is processed (written) and then terminates the
endpoint's pagination loop — no further request is made — while a page of
exactly 1000 records is processed and makes the loop request the next page. -/
theorem fetchLoop_short_page_stops_full_page_continues (env : Env)
    (cfg : EndpointConfig) (fuel pageNo : Nat) (tbl : Table) (acc : Nat)
    (reqs : List (String × Nat)) (raw header : Val) (tbl' : Table)
    (count : Nat) (its : List Val)
    (hf : env.fetch cfg.endpoint pageNo = .resp 200 (some raw))
    (hh : resolveHeader raw = some header)
    (hrc : resultCodeIsOk header = some true)
    (hro : parse_api_response raw ≠ [])
    (hsave : save_to_db_dynamic env.md5hex tbl cfg.pk cfg.mapping
        (parse_api_response raw) cfg.pk_gen_keys
        (env.writeOk cfg.endpoint pageNo) = some (tbl', count, its)) :
    ((parse_api_response raw).length < numOfRows →
      fetchLoop env cfg (fuel + 1) pageNo tbl acc reqs
        = (tbl', acc + count, reqs ++ [(cfg.endpoint, pageNo)])) ∧
    ((parse_api_response raw).length = numOfRows →
      fetchLoop env cfg (fuel + 2) pageNo tbl acc reqs
        = fetchLoop env cfg (fuel + 1) (pageNo + 1) tbl' (acc + count)
            (reqs ++ [(cfg.endpoint, pageNo)]) ∧
      (cfg.endpoint, pageNo + 1)
        ∈ (fetchLoop env cfg (fuel + 2) pageNo tbl acc reqs).2.2) := by
  have hroe : (parse_api_response raw).isEmpty = false := by
    simpa [List.isEmpty_iff] using hro
  constructor
  · intro hlt
    simp only [fetchLoop, hf]
    rw [if_neg (by simp)]
    simp only [hh, hrc, hroe, Bool.false_eq_true, if_false, hsave]
    rw [if_pos hlt]
  · intro hfull
    have hstep : fetchLoop env cfg (fuel + 2) pageNo tbl acc reqs
        = fetchLoop env cfg (fuel + 1) (pageNo + 1) tbl' (acc + count)
            (reqs ++ [(cfg.endpoint, pageNo)]) := by
      simp only [fetchLoop, hf]
      rw [if_neg (by simp)]
      simp only [hh, hrc, hroe, Bool.false_eq_true, if_false, hsave]
      rw [if_neg (by simp [hfull])]
    refine ⟨hstep, ?_⟩
    rw [hstep]
    obtain ⟨tail, htail⟩ := fetchLoop_requests_shape env cfg fuel (pageNo + 1)
      tbl' (acc + count) (reqs ++ [(cfg.endpoint, pageNo)])
    rw [htail]
    simp

/-- Witness for `fetchLoop_short_page_stops_full_page_continues` at a
one-record page (a short page, so the first implication is exercised). -/
theorem fetchLoop_short_page_witness :
    (envOnePage.fetch sampleCfg.endpoint 1 = .resp 200 (some onePageEnvelope) ∧
     resolveHeader onePageEnvelope = some (mkDict [("resultCode", .vstr "00")]) ∧
     resultCodeIsOk (mkDict [("resultCode", .vstr "00")]) = some true ∧
     parse_api_response onePageEnvelope ≠ [] ∧
     save_to_db_dynamic envOnePage.md5hex [] sampleCfg.pk sampleCfg.mapping
        (parse_api_response onePageEnvelope) sampleCfg.pk_gen_keys
        (envOnePage.writeOk sampleCfg.endpoint 1)
       = some ([[.vstr "001", .vstr "001"]], 1,
           [mkDict [("stnCd", .vstr "001"), ("generated_id", .vstr "001")]])) ∧
    (((parse_api_response onePageEnvelope).length < numOfRows →
      fetchLoop envOnePage sampleCfg (0 + 1) 1 [] 0 []
        = ([[.vstr "001", .vstr "001"]], 0 + 1,
            [] ++ [(sampleCfg.endpoint, 1)])) ∧
     ((parse_api_response onePageEnvelope).length = numOfRows →
      fetchLoop envOnePage sampleCfg (0 + 2) 1 [] 0 []
        = fetchLoop envOnePage sampleCfg (0 + 1) 2 [[.vstr "001", .vstr "001"]]
            (0 + 1) ([] ++ [(sampleCfg.endpoint, 1)]) ∧
      (sampleCfg.endpoint, 2)
        ∈ (fetchLoop envOnePage sampleCfg (0 + 2) 1 [] 0 []).2.2)) :=
  ⟨⟨by decide, by decide, by decide, by decide, by decide⟩,
   fetchLoop_short_page_stops_full_page_continues envOnePage sampleCfg 0 1 []
     0 [] onePageEnvelope (mkDict [("resultCode", .vstr "00")])
     [[.vstr "001", .vstr "001"]] 1
     [mkDict [("stnCd", .vstr "001"), ("generated_id", .vstr "001")]]
     (by decide) (by decide) (by decide) (by decide) (by decide)⟩

theorem getTable_setTable :
    ∀ (db : DB) (n : String) (tbl : Table) (m : String),
    getTable (setTable db n tbl) m = if m = n then tbl else getTable db m
  | [], n, tbl, m => by
      simp only [setTable, getTable]
      by_cases h : m = n
      · rw [if_pos h.symm, if_pos h]
      · rw [if_neg (fun hc => h hc.symm), if_neg h]
  | (k, t) :: rest, n, tbl, m => by
      simp only [setTable]
      by_cases hk : k = n
      · rw [if_pos hk]
        simp only [getTable]
        by_cases hm : k = m
        · have hmn : m = n := hm.symm.trans hk
          rw [if_pos hm, if_pos hmn]
        · have hmn : ¬m = n := fun hc => hm (hk.trans hc.symm)
          rw [if_neg hm, if_neg hmn, if_neg hm]
      · rw [if_neg hk]
        simp only [getTable]
        by_cases hm : k = m
        · have hmn : ¬m = n := fun hc => hk ((hm ▸ hc : k = n))
          rw [if_pos hm, if_neg hmn, if_pos hm]
        · rw [if_neg hm, getTable_setTable rest n tbl m, if_neg hm]

theorem fetchLoop_fail_first (env : Env) (cfg : EndpointConfig) (fuel : Nat)
    (tbl : Table) (status : Nat) (body : Option Val)
    (hf : env.fetch cfg.endpoint 1 = .resp status body) (hs : status ≠ 200) :
    fetchLoop env cfg (fuel + 1) 1 tbl 0 [] = (tbl, 0, [(cfg.endpoint, 1)]) := by
  simp only [fetchLoop, hf]
  rw [if_pos hs]
  simp

theorem runEndpoints_table_invariant (env : Env) (fuel : Nat) (t : String) :
    ∀ (cfgs : List EndpointConfig) (db : DB),
    (∀ cfg ∈ cfgs, cfg.table = t →
      ∀ tb : Table, (fetchLoop env cfg fuel 1 tb 0 []).1 = tb) →
    getTable (runEndpoints env fuel cfgs db).1 t = getTable db t
  | [], _, _ => rfl
  | cfg :: rest, db, h => by
      simp only [runEndpoints]
      rw [runEndpoints_table_invariant env fuel t rest _
        (fun c hc => h c (by simp [hc]))]
      rw [getTable_setTable]
      by_cases ht : t = cfg.table
      · rw [if_pos ht]
        have hfix := h cfg (by simp) ht.symm (getTable db cfg.table)
        rw [hfix, ht]
      · rw [if_neg ht]

theorem runEndpoints_requests_mem (env : Env) (fuel : Nat) :
    ∀ (cfgs : List EndpointConfig) (db : DB) (cfg : EndpointConfig),
    cfg ∈ cfgs → 1 ≤ fuel →
    (cfg.endpoint, 1) ∈ (runEndpoints env fuel cfgs db).2.2
  | [], _, _, h, _ => absurd h (by simp)
  | c :: rest, db, cfg, h, hfuel => by
      simp only [runEndpoints]
      rcases List.mem_cons.mp h with h0 | h0
      · subst h0
        apply List.mem_append_left
        obtain ⟨f, rfl⟩ : ∃ f, fuel = f + 1 := ⟨fuel - 1, by omega⟩
        obtain ⟨tail, htail⟩ := fetchLoop_requests_shape env cfg f 1
          (getTable db cfg.table) 0 []
        rw [htail]
        simp
      · apply List.mem_append_right
        exact runEndpoints_requests_mem env fuel rest _ cfg h0 hfuel

theorem api_config_tables_nodup :
    (API_CONFIG.map (fun c => c.table)).Nodup := by
  decide

theorem api_config_eq_of_table_eq {cfg : EndpointConfig}
    (hc : cfg ∈ API_CONFIG) {i : Nat} (hi : i < API_CONFIG.length)
    (ht : cfg.table = (API_CONFIG.get ⟨i, hi⟩).table) :
    cfg = API_CONFIG.get ⟨i, hi⟩ :=
  List.inj_on_of_nodup_map api_config_tables_nodup hc
    (List.get_mem API_CONFIG i hi) ht

/-- Claim C6: an endpoint whose first page request fails (e.g. HTTP 500) writes
zero rows — its facility table is left untouched by the whole run — yet every
endpoint of the static configuration list still issues its first page
request, and the summary-table aggregation is still invoked exactly once
after all endpoints have been attempted. -/
theorem endpoint_failure_isolated (env : Env) (fuel i : Nat)
    (hi : i < API_CONFIG.length) (db : DB) (status : Nat) (body : Option Val)
    (hconn : env.connOk = true) (hfuel : 1 ≤ fuel)
    (hfail : env.fetch (API_CONFIG.get ⟨i, hi⟩).endpoint 1 = .resp status body)
    (hstatus : status ≠ 200) :
    getTable (lambda_handler env fuel db).db (API_CONFIG.get ⟨i, hi⟩).table
      = getTable db (API_CONFIG.get ⟨i, hi⟩).table ∧
    (∀ j (hj : j < API_CONFIG.length),
      ((API_CONFIG.get ⟨j, hj⟩).endpoint, 1)
        ∈ (lambda_handler env fuel db).requests) ∧
    (lambda_handler env fuel db).summaryRuns = 1 := by
  obtain ⟨f, rfl⟩ : ∃ f, fuel = f + 1 := ⟨fuel - 1, by omega⟩
  have hfl : ∀ cfg, cfg ∈ API_CONFIG →
      cfg.table = (API_CONFIG.get ⟨i, hi⟩).table →
      ∀ tb : Table, (fetchLoop env cfg (f + 1) 1 tb 0 []).1 = tb := by
    intro cfg hcm htb tb
    have hceq : cfg = API_CONFIG.get ⟨i, hi⟩ :=
      api_config_eq_of_table_eq hcm hi htb
    subst hceq
    rw [fetchLoop_fail_first env (API_CONFIG.get ⟨i, hi⟩) f tb status body
      hfail hstatus]
  refine ⟨?_, ?_, ?_⟩
  · simp only [lambda_handler, hconn, if_true]
    exact runEndpoints_table_invariant env (f + 1) _ API_CONFIG db hfl
  · intro j hj
    simp only [lambda_handler, hconn, if_true]
    exact runEndpoints_requests_mem env (f + 1) API_CONFIG db _
      (List.get_mem API_CONFIG j hj) (by omega)
  · simp [lambda_handler, hconn]

/-- Witness for `endpoint_failure_isolated`: the first configured endpoint
gets HTTP 500 on its first page. -/
theorem endpoint_failure_isolated_witness :
    (envFirstPage500.connOk = true ∧ 1 ≤ 1 ∧
     envFirstPage500.fetch
        (API_CONFIG.get ⟨0, by decide⟩).endpoint 1 = .resp 500 none ∧
     (500 : Nat) ≠ 200) ∧
    (getTable (lambda_handler envFirstPage500 1 []).db
        (API_CONFIG.get ⟨0, by decide⟩).table
      = getTable [] (API_CONFIG.get ⟨0, by decide⟩).table ∧
     (∀ j (hj : j < API_CONFIG.length),
       ((API_CONFIG.get ⟨j, hj⟩).endpoint, 1)
         ∈ (lambda_handler envFirstPage500 1 []).requests) ∧
     (lambda_handler envFirstPage500 1 []).summaryRuns = 1) :=
  ⟨⟨by decide, by decide, by decide, by decide⟩,
   endpoint_failure_isolated envFirstPage500 1 0 (by decide) [] 500 none
     (by decide) (by decide) (by decide) (by decide)⟩

end AwsLambdaPipeline
